import Mathlib

set_option linter.unusedVariables false
set_option linter.unnecessarySeqFocus false

/-!
Shallow embedding of the scheduling/publishing core of the flowlyai backend
(Supabase Edge Functions in TypeScript), together with theorems settling the
spec claims about it.

Embedded source files:
- supabase/functions/common/_shared/types.ts (backoff utilities, status enums)
- supabase/functions/schedule-worker/index.ts and
  supabase/functions/scheduling/schedule-worker/index.ts (worker queries, tally)
- supabase/functions/publish-post/index.ts and
  supabase/functions/scheduling/publish-post/index.ts (delivery executor and
  the status aggregator updatePostStatus / updatePostStatusIfComplete)
- the create-scheduled-post and cancel-scheduled-post functions.

The persistent store is modelled as explicit lists of rows; timestamps are
integers (milliseconds); the external publish capability's result and the
fallibility of the target batch insert are injected as parameters.
-/

namespace Flowly

/-- Target status enum (`TargetStatusSchema` in types.ts). -/
inductive TargetStatus
  | queued
  | publishing
  | sent
  | failed
  | retrying
  | cancelled
deriving DecidableEq, Repr

/-- Post (WorkItem) status enum (`PostStatusSchema` in types.ts).
The source's "partial" status is named `mixed` here because `partial` is a
Lean keyword; it denotes the same value. -/
inductive PostStatus
  | draft
  | queued
  | publishing
  | published
  | mixed
  | failed
  | cancelled
deriving DecidableEq, Repr

/-! ### Backoff policy (types.ts lines 308-337; schedule-worker/index.ts lines 15-25) -/

/-- `MAX_RETRY_ATTEMPTS = 3` in types.ts (also `MAX_RETRY_ATTEMPTS` in the flat
publish-post and schedule-worker variants). -/
def MAX_RETRY_ATTEMPTS : Nat := 3

/-- `getBackoffDelayMs` from types.ts: `baseDelayMs * Math.pow(2, attemptCount)`
with `baseDelayMs = 60 * 1000`. -/
def getBackoffDelayMs (attemptCount : Nat) : Int :=
  60 * 1000 * 2 ^ attemptCount

/-- `shouldRetryTarget` from types.ts (identical logic to `shouldRetry` in
schedule-worker/index.ts).  `Date.now()` is the injected `now`; the
`lastAttemptAt` timestamp string is modelled as an optional integer. -/
def shouldRetryTarget (attemptCount : Nat) (lastAttemptAt : Option Int) (now : Int) : Bool :=
  if MAX_RETRY_ATTEMPTS ≤ attemptCount then
    false
  else
    match lastAttemptAt with
    | none => true
    | some t => decide (t + getBackoffDelayMs attemptCount ≤ now)

/-! ### Status aggregator (publish-post/index.ts `updatePostStatus` lines 231-257;
scheduling/publish-post/index.ts `updatePostStatusIfComplete` lines 356-404) -/

/-- The pending test in the aggregator:
`["queued", "retrying", "publishing"].includes(s)`. -/
def isPendingStatus (s : TargetStatus) : Bool :=
  s == .queued || s == .retrying || s == .publishing

/-- A terminal target status: sent, failed or cancelled. -/
def isTerminalStatus (s : TargetStatus) : Bool :=
  s == .sent || s == .failed || s == .cancelled

/-- The pure decision made by `updatePostStatus`: given the statuses of all the
post's targets and the call time, either `none` (no write: zero targets, or
some target still pending) or `some (newStatus, publishedAt)` — the row update
`{ status: newStatus, published_at: sent > 0 ? new Date().toISOString() : null }`. -/
def updatePostStatusWrite (statuses : List TargetStatus) (now : Int) :
    Option (PostStatus × Option Int) :=
  if statuses.length = 0 then none
  else if statuses.any isPendingStatus then none
  else
    let sent := (statuses.filter (fun s => s == .sent)).length
    let failed := (statuses.filter (fun s => s == .failed)).length
    let newStatus : PostStatus :=
      if sent = statuses.length then .published
      else if failed = statuses.length then .failed
      else if 0 < sent then .mixed
      else .failed
    some (newStatus, if 0 < sent then some now else none)

/-! ### Store model -/

/-- A `scheduled_post_targets` row (fields used by the scheduling core). -/
structure Target where
  id : Nat
  post_id : Nat
  platform : Nat
  content_final : String
  status : TargetStatus
  attempt_count : Nat
  last_error : Option String
  last_attempt_at : Option Int
  platform_post_id : Option String
  platform_post_url : Option String
  published_at : Option Int
deriving DecidableEq, Repr

/-- A `scheduled_posts` row (fields used by the scheduling core). -/
structure Post where
  id : Nat
  user_id : Nat
  content_raw : String
  scheduled_at : Int
  status : PostStatus
  published_at : Option Int
deriving DecidableEq, Repr

/-- The persistent store: posts, targets, and the set of connected social
accounts given as (user_id, platform) pairs.  `nextId` models the store's
fresh-id generation for inserted rows. -/
structure Db where
  posts : List Post
  targets : List Target
  accounts : List (Nat × Nat)
  nextId : Nat
deriving DecidableEq, Repr

/-- `.eq("id", targetId).single()` on `scheduled_post_targets`. -/
def findTarget (db : Db) (targetId : Nat) : Option Target :=
  db.targets.find? (fun t => t.id == targetId)

/-- `.eq("id", postId).single()` on `scheduled_posts`. -/
def findPost (db : Db) (postId : Nat) : Option Post :=
  db.posts.find? (fun p => p.id == postId)

/-- `update(...).eq("id", targetId)` on `scheduled_post_targets`: applies the
row update `f` to every row whose id matches (the primary key makes this at
most one row in the real store). -/
def updateTarget (db : Db) (targetId : Nat) (f : Target → Target) : Db :=
  { db with targets := db.targets.map (fun t => if t.id == targetId then f t else t) }

/-- Whether a `social_accounts` row exists for (user_id, platform)
(the `.single()` credential lookup in the delivery executor). -/
def hasAccount (db : Db) (userId platform : Nat) : Bool :=
  db.accounts.any (fun a => a.1 == userId && a.2 == platform)

/-- The aggregator applied to the store: query the statuses of the post's
targets, and perform the conditional write decided by `updatePostStatusWrite`. -/
def applyAggregator (db : Db) (postId : Nat) (now : Int) : Db :=
  let statuses := (db.targets.filter (fun t => t.post_id == postId)).map Target.status
  match updatePostStatusWrite statuses now with
  | none => db
  | some (st, pub) =>
      { db with posts := db.posts.map (fun p =>
          if p.id == postId then { p with status := st, published_at := pub } else p) }

/-! ### Delivery executor (publish-post/index.ts lines 111-225;
scheduling/publish-post/index.ts lines 109-319) -/

/-- Result of the external publish capability (`publishToPlatform`). -/
inductive PublishResult
  | ok (postId : String) (postUrl : String)
  | err (msg : String)
deriving DecidableEq, Repr

/-- Outcome of one delivery attempt, mirroring the distinct responses of the
publish-post handler. -/
inductive Outcome
  | notFound
  | invalidState (current : TargetStatus)
  | retriesExhausted
  | noCredential
  | sentOk (platformPostId : String) (platformPostUrl : String)
  | externalFailure (error : String) (willRetry : Bool)
deriving DecidableEq, Repr

/-- Whether an outcome corresponds to an attempt actually performed (the
existence/state/attempt-cap preconditions passed, so the target row was
written): the no-credential, success and external-failure paths. -/
def attemptPerformed : Outcome → Bool
  | .noCredential => true
  | .sentOk _ _ => true
  | .externalFailure _ _ => true
  | _ => false

/-- The error note written on the no-credential path
(`last_error: "No connected social account for this platform"`). -/
def noCredentialNote : String := "No connected social account for this platform"

/-- One delivery attempt on a target, following the publish-post handler:
fetch the target joined with its parent post; reject if missing; reject unless
status is queued/retrying; reject if `attempt_count >= MAX_RETRY_ATTEMPTS`;
if no social account exists, mark the target failed (counting the attempt) and
stop; otherwise mark it publishing, invoke the external publish capability
(its result `pub` is injected), write the success or failure row update using
the attempt count read at fetch time, and invoke the aggregator on the parent.
Note the aggregator is invoked on the success and external-failure paths only,
exactly as in the source. -/
def attemptDelivery (db : Db) (targetId : Nat) (pub : PublishResult) (now : Int) :
    Db × Outcome :=
  match findTarget db targetId with
  | none => (db, .notFound)
  | some target =>
    match findPost db target.post_id with
    | none => (db, .notFound)
    | some post =>
      if ¬(target.status == .queued || target.status == .retrying) then
        (db, .invalidState target.status)
      else if MAX_RETRY_ATTEMPTS ≤ target.attempt_count then
        (db, .retriesExhausted)
      else if ¬ hasAccount db post.user_id target.platform then
        let db1 := updateTarget db targetId (fun u =>
          { u with status := .failed,
                   last_error := some noCredentialNote,
                   attempt_count := target.attempt_count + 1,
                   last_attempt_at := some now })
        (db1, .noCredential)
      else
        let db1 := updateTarget db targetId (fun u => { u with status := .publishing })
        match pub with
        | .ok pid purl =>
          let db2 := updateTarget db1 targetId (fun u =>
            { u with status := .sent,
                     platform_post_id := some pid,
                     platform_post_url := some purl,
                     attempt_count := target.attempt_count + 1,
                     last_attempt_at := some now,
                     published_at := some now,
                     last_error := none })
          (applyAggregator db2 target.post_id now, .sentOk pid purl)
        | .err msg =>
          let newAttempt := target.attempt_count + 1
          let willRetry := decide (newAttempt < MAX_RETRY_ATTEMPTS)
          let newStatus : TargetStatus := if willRetry then .retrying else .failed
          let db2 := updateTarget db1 targetId (fun u =>
            { u with status := newStatus,
                     last_error := some msg,
                     attempt_count := newAttempt,
                     last_attempt_at := some now })
          (applyAggregator db2 target.post_id now, .externalFailure msg willRetry)

/-! ### The transition to publishing, as executed concurrently

The publish-post handler checks the target's status with a plain read
(`!["queued", "retrying"].includes(target.status)` at lines 125-130 of the
flat variant, lines 147-163 of the scheduling variant) and later performs
`update({ status: "publishing" }).eq("id", targetId)` (lines 158-162 /
224-228) — an update conditioned only on the row id, with no condition on the
current status.  `statusGuardPasses` is the read-check; `markPublishing` is
the write exactly as issued. -/

/-- The read-phase state guard of the delivery executor. -/
def statusGuardPasses (db : Db) (targetId : Nat) : Bool :=
  match findTarget db targetId with
  | some t => t.status == .queued || t.status == .retrying
  | none => false

/-- The write that moves a target to publishing:
`update({ status: "publishing" }).eq("id", targetId)` — unconditional on the
current status. -/
def markPublishing (db : Db) (targetId : Nat) : Db :=
  updateTarget db targetId (fun u => { u with status := .publishing })

/-- Two concurrent delivery attempts on the same target, interleaved so that
both perform their status read before either performs its write (the race
window the spec's conditional-update requirement is meant to close).  Returns
whether each attempt passed the state guard, and the resulting store. -/
def raceTwoAttempts (db : Db) (targetId : Nat) : Bool × Bool × Db :=
  let aPasses := statusGuardPasses db targetId
  let bPasses := statusGuardPasses db targetId
  let db1 := if aPasses then markPublishing db targetId else db
  let db2 := if bPasses then markPublishing db1 targetId else db1
  (aPasses, bPasses, db2)

/-! ### Creation (create-scheduled-post, both variants) -/

/-- Creation of a scheduled post with one target per requested platform,
following create-scheduled-post: reject a non-future scheduled time, an empty
platform list (schema `min(1)`), or a platform without a connected account;
insert the post row with status queued; attempt the batch insert of the target
rows (its fallibility is injected as `targetInsertFails`); on failure delete
the just-inserted post row (compensating rollback) and report failure.
Returns the updated store and whether creation succeeded. -/
def createScheduledPost (db : Db) (now : Int) (userId : Nat) (contentRaw : String)
    (scheduledAt : Int) (platforms : List Nat) (variants : Nat → Option String)
    (targetInsertFails : Bool) : Db × Bool :=
  if decide (scheduledAt ≤ now) then (db, false)
  else if platforms.length = 0 then (db, false)
  else if platforms.any (fun p => !hasAccount db userId p) then (db, false)
  else
    let postId := db.nextId
    let post : Post :=
      { id := postId, user_id := userId, content_raw := contentRaw,
        scheduled_at := scheduledAt, status := .queued, published_at := none }
    let db1 : Db := { db with posts := db.posts ++ [post], nextId := db.nextId + 1 }
    if targetInsertFails then
      ({ db1 with posts := db1.posts.filter (fun p => !(p.id == postId)) }, false)
    else
      let newTargets : List Target := platforms.enum.map (fun ip =>
        { id := db1.nextId + ip.1, post_id := postId, platform := ip.2,
          content_final := (variants ip.2).getD contentRaw, status := .queued,
          attempt_count := 0, last_error := none, last_attempt_at := none,
          platform_post_id := none, platform_post_url := none,
          published_at := none })
      ({ db1 with targets := db1.targets ++ newTargets,
                  nextId := db1.nextId + platforms.length }, true)

/-! ### Cancellation (cancel-scheduled-post, both variants) -/

/-- Result of a cancellation request. -/
inductive CancelResult
  | notFound
  | forbidden
  | invalidStatus (current : PostStatus)
  | ok (targetsUpdated : Nat)
deriving DecidableEq, Repr

/-- The error note written on cancelled targets (`last_error: "Post cancelled
by user"`). -/
def cancelledNote : String := "Post cancelled by user"

/-- Whether a target row is hit by the cancellation update
`.eq("post_id", postId).in("status", ["queued", "retrying", "publishing"])`. -/
def cancellable (postId : Nat) (t : Target) : Bool :=
  t.post_id == postId &&
    (t.status == .queued || t.status == .retrying || t.status == .publishing)

/-- Cancellation of a scheduled post, following cancel-scheduled-post: fetch
the post (404 if missing); 403 unless the requester owns it; 400 if its status
is published or cancelled; otherwise set the post's status to cancelled, and
set status cancelled plus the explanatory `last_error` on every target of the
post whose status is still queued, retrying or publishing, leaving all other
targets untouched. -/
def cancelScheduledPost (db : Db) (postId userId : Nat) : Db × CancelResult :=
  match findPost db postId with
  | none => (db, .notFound)
  | some post =>
    if ¬(post.user_id = userId) then (db, .forbidden)
    else if post.status == .published || post.status == .cancelled then
      (db, .invalidStatus post.status)
    else
      let db1 : Db := { db with posts := db.posts.map (fun p =>
        if p.id == postId then { p with status := .cancelled } else p) }
      let db2 : Db := { db1 with targets := db1.targets.map (fun t =>
        if cancellable postId t
        then { t with status := .cancelled, last_error := some cancelledNote }
        else t) }
      (db2, .ok (db1.targets.filter (cancellable postId)).length)

/-! ### Scheduling worker queries (schedule-worker/index.ts lines 70-76;
scheduling/schedule-worker/index.ts lines 56-70) -/

/-- `BATCH_SIZE = 50` in both worker variants. -/
def BATCH_SIZE : Nat := 50

/-- The filter of the fresh-work query: target status queued, parent post
status queued and `scheduled_at <= now` (the `!inner` join makes a matching
parent row mandatory). -/
def dueQueuedPred (db : Db) (now : Int) (t : Target) : Bool :=
  t.status == .queued &&
    db.posts.any (fun p =>
      p.id == t.post_id && p.status == .queued && decide (p.scheduled_at ≤ now))

/-- The parent post's `scheduled_at` (the join column the ordered query sorts
by); 0 if the parent is missing (cannot happen for rows passing the filter). -/
def parentScheduledAt (db : Db) (t : Target) : Int :=
  match findPost db t.post_id with
  | some p => p.scheduled_at
  | none => 0

/-- The fresh-work query of the flat schedule-worker variant
(schedule-worker/index.ts lines 70-76): filter and `.limit(BATCH_SIZE)`, with
no `.order(...)` clause — rows come back in the store's own order, modelled
here as the row-list order. -/
def workerQueuedQueryFlat (db : Db) (now : Int) : List Target :=
  ((db.targets.filter (dueQueuedPred db now)).take BATCH_SIZE)

/-- The fresh-work query of the scheduling schedule-worker variant
(scheduling/schedule-worker/index.ts lines 56-70): same filter, ordered by the
parent's `scheduled_at` ascending, then `.limit(BATCH_SIZE)`. -/
def workerQueuedQueryOrdered (db : Db) (now : Int) : List Target :=
  (((db.targets.filter (dueQueuedPred db now)).insertionSort
      (fun a b => parentScheduledAt db a ≤ parentScheduledAt db b)).take BATCH_SIZE)

/-! ### The publish endpoint's HTTP envelope and the worker's tally
(publish-post/index.ts lines 120-220; schedule-worker/index.ts lines 129-159;
scheduling/schedule-worker/index.ts lines 148-209) -/

/-- The HTTP reply of the publish-post handler as far as the worker inspects
it: status code, the envelope's `success` flag, and the failure information
carried inside `data` on the external-failure path. -/
structure HttpReply where
  status : Nat
  success : Bool
  dataStatus : Option TargetStatus
  dataError : Option String
  dataWillRetry : Option Bool
deriving DecidableEq, Repr

/-- The publish-post handler's HTTP reply for each outcome: 404/400 with
`success: false` for the precondition rejections and the no-credential path,
HTTP 200 with `success: true` for both the success path and the
external-failure path (the failure is reported only inside `data`). -/
def publishHttpReply : Outcome → HttpReply
  | .notFound =>
      { status := 404, success := false,
        dataStatus := none, dataError := none, dataWillRetry := none }
  | .invalidState _ =>
      { status := 400, success := false,
        dataStatus := none, dataError := none, dataWillRetry := none }
  | .retriesExhausted =>
      { status := 400, success := false,
        dataStatus := none, dataError := none, dataWillRetry := none }
  | .noCredential =>
      { status := 400, success := false,
        dataStatus := none, dataError := none, dataWillRetry := none }
  | .sentOk _ _ =>
      { status := 200, success := true,
        dataStatus := some .sent, dataError := none, dataWillRetry := none }
  | .externalFailure e w =>
      { status := 200, success := true,
        dataStatus := some (if w then .retrying else .failed),
        dataError := some e, dataWillRetry := some w }

/-- The worker's per-target classification (`res.ok && json.success`): an
attempt counts in the succeeded tally iff the HTTP call returned (did not
throw, modelled as `none`), the status code is 2xx, and the envelope's
`success` flag is true; otherwise it counts in the failed tally. -/
def workerCountsSucceeded (reply : Option HttpReply) : Bool :=
  match reply with
  | none => false
  | some r => (decide (200 ≤ r.status) && decide (r.status < 300)) && r.success

/-! ### Concrete fixtures used by witnesses and counterexamples -/

/-- A target row with the given key fields and empty bookkeeping fields. -/
def mkTarget (id postId platform : Nat) (st : TargetStatus) (attempts : Nat) : Target :=
  { id := id, post_id := postId, platform := platform, content_final := "hello",
    status := st, attempt_count := attempts, last_error := none,
    last_attempt_at := none, platform_post_id := none, platform_post_url := none,
    published_at := none }

/-- A post row with the given key fields. -/
def mkPost (id userId : Nat) (st : PostStatus) (sched : Int) : Post :=
  { id := id, user_id := userId, content_raw := "hello", scheduled_at := sched,
    status := st, published_at := none }

/-- Store with one publishing post and one queued target whose owner has a
connected account for the target's platform. -/
def exDbDeliver : Db :=
  { posts := [mkPost 1 7 .publishing 0],
    targets := [mkTarget 10 1 0 .queued 0],
    accounts := [(7, 0)], nextId := 100 }

/-- Store with one publishing post and one queued target whose owner has no
connected account at all. -/
def exDbNoCred : Db :=
  { posts := [mkPost 1 7 .publishing 0],
    targets := [mkTarget 10 1 0 .queued 0],
    accounts := [], nextId := 100 }

/-- Store for the worker-query counterexample: two due queued posts, the later
one (scheduled_at = 100) stored before the earlier one (scheduled_at = 50),
each with one queued target. -/
def exDbWorker : Db :=
  { posts := [mkPost 1 7 .queued 100, mkPost 2 7 .queued 50],
    targets := [mkTarget 10 1 0 .queued 0, mkTarget 11 2 1 .queued 0],
    accounts := [], nextId := 100 }

/-- A target already delivered, with its destination-assigned id/url and
timestamps recorded. -/
def exSentTarget : Target :=
  { id := 10, post_id := 1, platform := 0, content_final := "hello",
    status := .sent, attempt_count := 1, last_error := none,
    last_attempt_at := some 42, platform_post_id := some "pid123",
    platform_post_url := some "https://x/pid123", published_at := some 42 }

/-- Store for the cancellation witness: one queued post owned by user 7 with
one sent target and one queued target. -/
def exDbCancel : Db :=
  { posts := [mkPost 1 7 .queued 0],
    targets := [exSentTarget, mkTarget 11 1 1 .queued 0],
    accounts := [], nextId := 100 }

/-- Empty store whose only connected account is (user 7, platform 0). -/
def exDbCreate : Db :=
  { posts := [], targets := [], accounts := [(7, 0)], nextId := 0 }

/-- The queued target of `exDbCancel` after cancellation: status cancelled,
explanatory note, everything else untouched. -/
def exCancelledQueuedTarget : Target :=
  { mkTarget 11 1 1 .queued 0 with status := .cancelled, last_error := some cancelledNote }

/-! ### Helper lemmas -/

theorem length_filter_eq_length_iff {α : Type} (p : α → Bool) (l : List α) :
    (l.filter p).length = l.length ↔ ∀ a ∈ l, p a = true := by
  constructor
  · intro h
    exact List.filter_eq_self.mp ((List.filter_sublist l).eq_of_length h)
  · intro h
    rw [List.filter_eq_self.mpr h]

/-! ### Claim theorems -/

/-- C1: for every attempt count `a` and last-attempt time `t`, the
retry-eligibility function returns false whenever `a ≥ 3`; returns true
whenever `a < 3` and no prior attempt exists; and otherwise, with `a < 3`,
returns true iff `now ≥ t + 60000 * 2^a` — in particular false at
`now = t + 60000*2^a - 1` and true at `now = t + 60000*2^a`. -/
theorem shouldRetryTarget_spec (a : Nat) (t now : Int) :
    (3 ≤ a → shouldRetryTarget a (some t) now = false ∧
             shouldRetryTarget a none now = false) ∧
    (a < 3 → shouldRetryTarget a none now = true) ∧
    (a < 3 → (shouldRetryTarget a (some t) now = true ↔ t + 60000 * 2 ^ a ≤ now)) ∧
    (a < 3 → shouldRetryTarget a (some t) (t + 60000 * 2 ^ a - 1) = false ∧
             shouldRetryTarget a (some t) (t + 60000 * 2 ^ a) = true) := by
  have hdelay : getBackoffDelayMs a = 60000 * 2 ^ a := by
    unfold getBackoffDelayMs; norm_num
  have hiff : ∀ n : Int, shouldRetryTarget a (some t) n = true ↔
      (a < 3 → t + 60000 * 2 ^ a ≤ n) ∧ a < 3 := by
    intro n
    unfold shouldRetryTarget MAX_RETRY_ATTEMPTS
    by_cases h3 : 3 ≤ a
    · rw [if_pos h3]
      simp only [Bool.false_eq_true, false_iff]
      intro hc
      omega
    · rw [if_neg h3, hdelay]
      simp only [decide_eq_true_eq]
      constructor
      · intro h
        exact ⟨fun _ => h, by omega⟩
      · intro h
        exact h.1 (by omega)
  refine ⟨?_, ?_, ?_, ?_⟩
  · intro h3
    constructor
    · have := hiff now
      rcases hb : shouldRetryTarget a (some t) now with _ | _
      · rfl
      · exact absurd ((this.mp hb).2) (by omega)
    · unfold shouldRetryTarget MAX_RETRY_ATTEMPTS
      rw [if_pos h3]
  · intro hlt
    unfold shouldRetryTarget MAX_RETRY_ATTEMPTS
    rw [if_neg (by omega)]
  · intro hlt
    rw [hiff now]
    constructor
    · intro h
      exact h.1 hlt
    · intro h
      exact ⟨fun _ => h, hlt⟩
  · intro hlt
    constructor
    · rcases hb : shouldRetryTarget a (some t) (t + 60000 * 2 ^ a - 1) with _ | _
      · rfl
      · have := ((hiff _).mp hb).1 hlt
        linarith
    · exact (hiff _).mpr ⟨fun _ => le_refl _, hlt⟩

/-- Witness for C1, at `a = 2`, `t = 0`: ineligible one millisecond before the
240-second backoff elapses, eligible exactly when it does, eligible with no
prior attempt, ineligible at the attempt cap. -/
theorem shouldRetryTarget_spec_witness :
    shouldRetryTarget 2 (some 0) 239999 = false ∧
    shouldRetryTarget 2 (some 0) 240000 = true ∧
    shouldRetryTarget 2 none 0 = true ∧
    shouldRetryTarget 3 (some 0) 999999999 = false := by
  have h := shouldRetryTarget_spec 2 0 0
  have hb := h.2.2.2 (by omega)
  refine ⟨?_, ?_, ?_, ?_⟩
  · have := hb.1
    norm_num at this
    exact this
  · have := hb.2
    norm_num at this
    exact this
  · exact (shouldRetryTarget_spec 2 0 0).2.1 (by omega)
  · exact ((shouldRetryTarget_spec 3 0 999999999).1 (by omega)).1

/-- C2: on a non-empty status list the aggregator is a no-op whenever some
element is queued, publishing or retrying; and when every element is terminal
it writes published if all are sent, failed if none is sent, and the mixed
outcome status ("partial" in the source) if at least one is sent and at least
one is not. -/
theorem updatePostStatus_aggregation (l : List TargetStatus) (now : Int)
    (hne : l ≠ []) :
    (l.any isPendingStatus = true → updatePostStatusWrite l now = none) ∧
    (l.all isTerminalStatus = true →
      ((∀ s ∈ l, s = .sent) →
          (updatePostStatusWrite l now).map Prod.fst = some .published) ∧
      ((∀ s ∈ l, s ≠ .sent) →
          (updatePostStatusWrite l now).map Prod.fst = some .failed) ∧
      (((∃ s ∈ l, s = .sent) ∧ (∃ s ∈ l, s ≠ .sent)) →
          (updatePostStatusWrite l now).map Prod.fst = some .mixed)) := by
  have hlen0 : ¬ l.length = 0 := by
    simpa [List.length_eq_zero] using hne
  constructor
  · intro h
    unfold updatePostStatusWrite
    rw [if_neg hlen0, if_pos (by simp [h])]
  · intro hterm
    have hpend : ¬ l.any isPendingStatus = true := by
      simp only [List.any_eq_true, not_exists]
      intro s
      rintro ⟨hs, hp⟩
      have ht := List.all_eq_true.mp hterm s hs
      cases s <;> simp_all [isPendingStatus, isTerminalStatus]
    refine ⟨?_, ?_, ?_⟩
    · intro hsent
      have hfil : l.filter (fun s => s == .sent) = l :=
        List.filter_eq_self.mpr (fun a ha => by simp [hsent a ha])
      unfold updatePostStatusWrite
      rw [if_neg hlen0, if_neg (by simpa using hpend)]
      simp [hfil]
    · intro hnone
      have hfil : (l.filter (fun s => s == .sent)).length = 0 := by
        simp only [List.length_eq_zero, List.filter_eq_nil_iff]
        intro a ha
        simp [hnone a ha]
      unfold updatePostStatusWrite
      rw [if_neg hlen0, if_neg (by simpa using hpend)]
      simp only [hfil, Option.map_some]
      rw [if_neg (by omega)]
      by_cases hf : (l.filter (fun s => s == .failed)).length = l.length
      · rw [if_pos hf]
        simp
      · rw [if_neg hf, if_neg (by omega)]
        simp
    · rintro ⟨⟨s1, hs1, hs1e⟩, ⟨s2, hs2, hs2e⟩⟩
      have hpos : 0 < (l.filter (fun s => s == .sent)).length := by
        apply List.length_pos.mpr
        intro hnil
        have : s1 ∈ l.filter (fun s => s == .sent) :=
          List.mem_filter.mpr ⟨hs1, by simp [hs1e]⟩
        simp [hnil] at this
      have hslt : ¬ (l.filter (fun s => s == .sent)).length = l.length := by
        intro h
        have := (length_filter_eq_length_iff _ l).mp h s2 hs2
        simp at this
        exact hs2e this
      have hflt : ¬ (l.filter (fun s => s == .failed)).length = l.length := by
        intro h
        have := (length_filter_eq_length_iff _ l).mp h s1 hs1
        rw [hs1e] at this
        simp at this
      unfold updatePostStatusWrite
      rw [if_neg hlen0, if_neg (by simpa using hpend)]
      simp only [Option.map_some]
      rw [if_neg hslt, if_neg hflt, if_pos hpos]
      simp

/-- Witness for C2: `[sent, failed]` aggregates to the mixed ("partial")
status, and `[sent, queued]` is a no-op. -/
theorem updatePostStatus_aggregation_witness :
    (updatePostStatusWrite [TargetStatus.sent, TargetStatus.failed] 0).map Prod.fst
      = some PostStatus.mixed ∧
    updatePostStatusWrite [TargetStatus.sent, TargetStatus.queued] 0 = none := by
  constructor
  · exact ((updatePostStatus_aggregation [TargetStatus.sent, TargetStatus.failed] 0
      (by decide)).2 (by decide)).2.2
      ⟨⟨TargetStatus.sent, by decide, rfl⟩, ⟨TargetStatus.failed, by decide, by decide⟩⟩
  · exact (updatePostStatus_aggregation [TargetStatus.sent, TargetStatus.queued] 0
      (by decide)).1 (by decide)

/-- Counterexample to C7 as stated: two aggregator invocations on the same
all-terminal target set `[sent]`, at call times 0 and 1, write the same status
but different published-at values (each invocation writes its own current
time), so the second call's write differs from the first. -/
theorem aggregator_publishedAt_cex :
    updatePostStatusWrite [TargetStatus.sent] 0 = some (PostStatus.published, some 0) ∧
    updatePostStatusWrite [TargetStatus.sent] 1 = some (PostStatus.published, some 1) ∧
    updatePostStatusWrite [TargetStatus.sent] 0 ≠ updatePostStatusWrite [TargetStatus.sent] 1 := by
  refine ⟨by decide, by decide, by decide⟩

/-- C7 (amended): recomputing with the same terminal status set yields the
same derived WorkItem status both times; the full write (including
published-at) is identical across the two calls whenever no target is sent
(published-at is null both times); and whenever a write happens its
published-at is either the invocation's own call time or null. -/
theorem aggregator_idempotence_amended (l : List TargetStatus) (now1 now2 : Int) :
    (updatePostStatusWrite l now1).map Prod.fst
      = (updatePostStatusWrite l now2).map Prod.fst ∧
    ((l.filter (fun s => s == .sent)).length = 0 →
        updatePostStatusWrite l now1 = updatePostStatusWrite l now2) ∧
    (∀ st pub, updatePostStatusWrite l now1 = some (st, pub) →
        pub = some now1 ∨ pub = none) := by
  refine ⟨?_, ?_, ?_⟩
  · unfold updatePostStatusWrite
    by_cases h0 : l.length = 0
    · rw [if_pos h0, if_pos h0]
    by_cases hp : l.any isPendingStatus = true
    · rw [if_neg h0, if_neg h0, if_pos (by simp [hp]), if_pos (by simp [hp])]
    · rw [if_neg h0, if_neg h0, if_neg (by simpa using hp), if_neg (by simpa using hp)]
      simp
  · intro hs
    unfold updatePostStatusWrite
    by_cases h0 : l.length = 0
    · rw [if_pos h0, if_pos h0]
    by_cases hp : l.any isPendingStatus = true
    · rw [if_neg h0, if_neg h0, if_pos (by simp [hp]), if_pos (by simp [hp])]
    · rw [if_neg h0, if_neg h0, if_neg (by simpa using hp), if_neg (by simpa using hp)]
      simp [hs]
  · intro st pub h
    unfold updatePostStatusWrite at h
    by_cases h0 : l.length = 0
    · rw [if_pos h0] at h
      exact absurd h (by simp)
    by_cases hp : l.any isPendingStatus = true
    · rw [if_neg h0, if_pos (by simp [hp])] at h
      exact absurd h (by simp)
    · rw [if_neg h0, if_neg (by simpa using hp)] at h
      simp only [Option.some_inj, Prod.mk.injEq] at h
      rcases h with ⟨-, h⟩
      by_cases hpos : 0 < (l.filter (fun s => s == .sent)).length
      · rw [if_pos hpos] at h
        exact Or.inl h.symm
      · rw [if_neg hpos] at h
        exact Or.inr h.symm

/-- Witness for C7's amended theorem: the all-failed set writes identically at
both call times. -/
theorem aggregator_idempotence_amended_witness :
    updatePostStatusWrite [TargetStatus.failed, TargetStatus.failed] 0
      = updatePostStatusWrite [TargetStatus.failed, TargetStatus.failed] 5 :=
  (aggregator_idempotence_amended [TargetStatus.failed, TargetStatus.failed] 0 5).2.1
    (by decide)

/-- C3 fails on the code: the transition to publishing is
`update({ status: "publishing" }).eq("id", targetId)` — conditional only on
the row id, not on the current status — issued after a separate read-check.
Interleaving two delivery attempts on the same queued target so that both
status reads happen before either write, BOTH attempts pass the state guard
(neither is rejected with the invalid-state error) and the target ends up
publishing, contradicting the claim that exactly one transitions it and the
other is rejected. -/
theorem race_both_attempts_pass_guard :
    (raceTwoAttempts exDbDeliver 10).1 = true ∧
    (raceTwoAttempts exDbDeliver 10).2.1 = true ∧
    findTarget (raceTwoAttempts exDbDeliver 10).2.2 10
      = some { mkTarget 10 1 0 .queued 0 with status := .publishing } := by
  refine ⟨by decide, by decide, by decide⟩

/-- Counterexample to C6 as stated: on a store whose only target (queued,
attempt_count 0, parent post publishing) has no credential for its owner, the
delivery attempt marks the target failed with the attempt counted, but the
parent post is left at its publishing status: the status aggregator is NOT
invoked on the no-credential path (invoking it would have rewritten the
store, as the last conjunct shows). -/
theorem noCredential_skips_aggregator_cex :
    (attemptDelivery exDbNoCred 10 (.err "boom") 5).2 = .noCredential ∧
    findTarget (attemptDelivery exDbNoCred 10 (.err "boom") 5).1 10
      = some { mkTarget 10 1 0 .queued 0 with
                 status := .failed, last_error := some noCredentialNote,
                 attempt_count := 1, last_attempt_at := some 5 } ∧
    findPost (attemptDelivery exDbNoCred 10 (.err "boom") 5).1 1
      = some (mkPost 1 7 .publishing 0) ∧
    applyAggregator (attemptDelivery exDbNoCred 10 (.err "boom") 5).1 1 5
      ≠ (attemptDelivery exDbNoCred 10 (.err "boom") 5).1 := by
  refine ⟨by decide, by decide, by decide, by decide⟩

/-- C6 (amended): a delivery attempt on a target in state queued/retrying with
attempt_count < 3 whose owner has no credential for the target's platform
marks the target failed with attempt_count incremented, last_attempt_at set
to now and last_error set, with the no-credential outcome regardless of
remaining attempts; but the status aggregator is NOT invoked afterwards — the
posts table is left unchanged (unlike the success and external-failure
paths). -/
theorem attemptDelivery_noCredential_spec (db : Db) (tid : Nat)
    (pub : PublishResult) (now : Int) (t : Target) (p : Post)
    (hft : findTarget db tid = some t)
    (hfp : findPost db t.post_id = some p)
    (hstat : t.status = .queued ∨ t.status = .retrying)
    (hatt : t.attempt_count < MAX_RETRY_ATTEMPTS)
    (hacc : hasAccount db p.user_id t.platform = false) :
    attemptDelivery db tid pub now =
      (updateTarget db tid (fun u =>
        { u with status := .failed, last_error := some noCredentialNote,
                 attempt_count := t.attempt_count + 1,
                 last_attempt_at := some now }), .noCredential) ∧
    (attemptDelivery db tid pub now).1.posts = db.posts := by
  have hcond : ¬¬((t.status == TargetStatus.queued
      || t.status == TargetStatus.retrying) = true) := by
    rcases hstat with h | h <;> simp [h]
  have heq : attemptDelivery db tid pub now =
      (updateTarget db tid (fun u =>
        { u with status := .failed, last_error := some noCredentialNote,
                 attempt_count := t.attempt_count + 1,
                 last_attempt_at := some now }), .noCredential) := by
    simp only [attemptDelivery, hft, hfp]
    rw [if_neg hcond, if_neg (by omega), if_pos (by simp [hacc])]
  exact ⟨heq, by rw [heq]; rfl⟩

/-- Witness for C6's amended theorem at the concrete no-credential store. -/
theorem attemptDelivery_noCredential_spec_witness :
    (attemptDelivery exDbNoCred 10 (.err "boom") 5).1.posts = exDbNoCred.posts :=
  (attemptDelivery_noCredential_spec exDbNoCred 10 (.err "boom") 5
    (mkTarget 10 1 0 .queued 0) (mkPost 1 7 .publishing 0)
    (by decide) (by decide) (Or.inl rfl) (by decide) (by decide)).2

/-- C4: creation is atomic.  If the target batch insert fails after the post
row was inserted, the post row is deleted again (compensating rollback), so
the store's posts and targets are exactly as before; if creation reports
success, the post row and one target row per requested platform all persist. -/
theorem createScheduledPost_atomic (db : Db) (now : Int) (userId : Nat)
    (contentRaw : String) (scheduledAt : Int) (platforms : List Nat)
    (variants : Nat → Option String) (targetInsertFails : Bool)
    (hfresh : ∀ p ∈ db.posts, p.id ≠ db.nextId) :
    (targetInsertFails = true →
      (createScheduledPost db now userId contentRaw scheduledAt platforms variants
          targetInsertFails).1.posts = db.posts ∧
      (createScheduledPost db now userId contentRaw scheduledAt platforms variants
          targetInsertFails).1.targets = db.targets) ∧
    ((createScheduledPost db now userId contentRaw scheduledAt platforms variants
        targetInsertFails).2 = true →
      (createScheduledPost db now userId contentRaw scheduledAt platforms variants
          targetInsertFails).1.posts
        = db.posts ++ [{ id := db.nextId, user_id := userId,
                         content_raw := contentRaw, scheduled_at := scheduledAt,
                         status := .queued, published_at := none }] ∧
      (createScheduledPost db now userId contentRaw scheduledAt platforms variants
          targetInsertFails).1.targets.length
        = db.targets.length + platforms.length ∧
      (∀ pf ∈ platforms,
        ∃ t ∈ (createScheduledPost db now userId contentRaw scheduledAt platforms
                  variants targetInsertFails).1.targets,
          t.post_id = db.nextId ∧ t.platform = pf ∧ t.status = .queued ∧
          t.attempt_count = 0)) := by
  unfold createScheduledPost
  by_cases h1 : decide (scheduledAt ≤ now) = true
  · rw [if_pos h1]
    exact ⟨fun _ => ⟨rfl, rfl⟩, fun h => absurd h (by simp)⟩
  rw [if_neg h1]
  by_cases h2 : platforms.length = 0
  · rw [if_pos h2]
    exact ⟨fun _ => ⟨rfl, rfl⟩, fun h => absurd h (by simp)⟩
  rw [if_neg h2]
  by_cases h3 : platforms.any (fun p => !hasAccount db userId p) = true
  · rw [if_pos h3]
    exact ⟨fun _ => ⟨rfl, rfl⟩, fun h => absurd h (by simp)⟩
  rw [if_neg h3]
  by_cases htf : targetInsertFails = true
  · rw [if_pos htf]
    refine ⟨fun _ => ⟨?_, rfl⟩, fun h => absurd h (by simp)⟩
    show (db.posts ++ [_]).filter _ = db.posts
    rw [List.filter_append]
    have hl : db.posts.filter (fun p => !(p.id == db.nextId)) = db.posts :=
      List.filter_eq_self.mpr (fun p hp => by simp [hfresh p hp])
    have hr : List.filter (fun p => !(p.id == db.nextId))
        [{ id := db.nextId, user_id := userId, content_raw := contentRaw,
           scheduled_at := scheduledAt, status := .queued,
           published_at := none : Post }] = [] := by simp
    rw [hl, hr, List.append_nil]
  · rw [if_neg htf]
    refine ⟨fun h => absurd h htf, fun _ => ⟨rfl, ?_, ?_⟩⟩
    · show (db.targets ++ _).length = _
      simp [List.enum_length]
    · intro pf hpf
      obtain ⟨i, hilt, hig⟩ := List.mem_iff_getElem.mp hpf
      have hmem : (i, pf) ∈ platforms.enum := by
        have hlen : i < platforms.enum.length := by
          simpa [List.enum_length] using hilt
        have he : platforms.enum[i] = (i, platforms[i]) :=
          List.getElem_enum platforms i hlen
        rw [hig] at he
        rw [← he]
        exact List.getElem_mem hlen
      refine ⟨_, List.mem_append_right _ (List.mem_map_of_mem _ hmem),
        rfl, rfl, rfl, rfl⟩

/-- Witness for C4 at a concrete store: the target insert fails, and the
just-inserted post row does not persist. -/
theorem createScheduledPost_atomic_witness :
    (createScheduledPost exDbCreate 0 7 "post" 60000 [0] (fun _ => none)
        true).1.posts = exDbCreate.posts ∧
    (createScheduledPost exDbCreate 0 7 "post" 60000 [0] (fun _ => none)
        true).1.targets = exDbCreate.targets :=
  (createScheduledPost_atomic exDbCreate 0 7 "post" 60000 [0] (fun _ => none) true
    (by decide)).1 rfl

/-- C5: a successful cancellation (the post exists, the requester owns it, and
its status is neither published nor cancelled) sets the post's status to
cancelled, turns every child target still queued/retrying/publishing into a
cancelled target carrying the explanatory error note with every other field
preserved, and leaves every sent or failed target entirely unchanged. -/
theorem cancelScheduledPost_spec (db : Db) (postId userId : Nat) (post : Post)
    (hfind : findPost db postId = some post)
    (howner : post.user_id = userId)
    (hpub : post.status ≠ .published) (hcan : post.status ≠ .cancelled) :
    (∃ n, (cancelScheduledPost db postId userId).2 = .ok n) ∧
    (cancelScheduledPost db postId userId).1.targets.length
        = db.targets.length ∧
    (∀ p ∈ (cancelScheduledPost db postId userId).1.posts,
        p.id = postId → p.status = .cancelled) ∧
    (∀ t ∈ db.targets, t.post_id = postId →
        (t.status = .queued ∨ t.status = .retrying ∨ t.status = .publishing) →
        { t with status := .cancelled, last_error := some cancelledNote }
          ∈ (cancelScheduledPost db postId userId).1.targets) ∧
    (∀ t ∈ db.targets, t.status = .sent ∨ t.status = .failed →
        t ∈ (cancelScheduledPost db postId userId).1.targets) := by
  have hres : cancelScheduledPost db postId userId =
      ({ db with
          posts := db.posts.map (fun p =>
            if p.id == postId then { p with status := .cancelled } else p),
          targets := db.targets.map (fun t =>
            if cancellable postId t
            then { t with status := .cancelled, last_error := some cancelledNote }
            else t) },
        .ok (db.targets.filter (cancellable postId)).length) := by
    simp only [cancelScheduledPost, hfind]
    rw [if_neg (by simp [howner]), if_neg (by simp [hpub, hcan])]
  rw [hres]
  refine ⟨⟨_, rfl⟩, by simp, ?_, ?_, ?_⟩
  · intro p hp hpid
    rcases List.mem_map.mp hp with ⟨p0, hp0, hp0e⟩
    by_cases hid : p0.id == postId
    · rw [if_pos hid] at hp0e
      rw [← hp0e]
    · rw [if_neg hid] at hp0e
      rw [← hp0e] at hpid
      simp [hpid] at hid
  · intro t ht htp hst
    have hc : cancellable postId t = true := by
      rcases hst with h | h | h <;> simp [cancellable, htp, h]
    have hm := List.mem_map_of_mem (fun t =>
      if cancellable postId t
      then { t with status := .cancelled, last_error := some cancelledNote }
      else t) ht
    simp only [hc, if_true] at hm
    simpa using hm
  · intro t ht hst
    have hc : cancellable postId t = false := by
      rcases hst with h | h <;> simp [cancellable, h]
    have hm := List.mem_map_of_mem (fun t =>
      if cancellable postId t
      then { t with status := .cancelled, last_error := some cancelledNote }
      else t) ht
    simp only [hc, Bool.false_eq_true, if_false] at hm
    simpa using hm

/-- Witness for C5: cancelling a queued post with one sent target and one
queued target leaves the sent target untouched and cancels the queued one. -/
theorem cancelScheduledPost_spec_witness :
    exSentTarget ∈ (cancelScheduledPost exDbCancel 1 7).1.targets ∧
    exCancelledQueuedTarget ∈ (cancelScheduledPost exDbCancel 1 7).1.targets := by
  have h := cancelScheduledPost_spec exDbCancel 1 7 (mkPost 1 7 .queued 0)
    (by decide) rfl (by decide) (by decide)
  exact ⟨h.2.2.2.2 exSentTarget (by decide) (Or.inl rfl),
         h.2.2.2.1 (mkTarget 11 1 1 .queued 0) (by decide) rfl (Or.inl rfl)⟩

theorem applyAggregator_targets (db : Db) (postId : Nat) (now : Int) :
    (applyAggregator db postId now).targets = db.targets := by
  simp only [applyAggregator]
  split
  · rfl
  · rfl

/-- Characterization of the delivery executor's effect on the targets table:
either the attempt was rejected by a precondition and the table is unchanged,
or the attempt was performed and the table is the original with a row update
applied to the rows matching the target id; the update preserves the row id,
sets attempt_count to the snapshot's attempt count plus one, and sets
last_attempt_at to the attempt time. -/
theorem attemptDelivery_targets_char (db : Db) (tid : Nat) (pub : PublishResult)
    (now : Int) :
    ((attemptDelivery db tid pub now).1.targets = db.targets ∧
      attemptPerformed (attemptDelivery db tid pub now).2 = false) ∨
    (∃ t0, findTarget db tid = some t0 ∧
      ∃ upd : Target → Target,
        (attemptDelivery db tid pub now).1.targets
          = db.targets.map (fun u => if u.id == tid then upd u else u) ∧
        (∀ u, (upd u).id = u.id) ∧
        (∀ u, (upd u).attempt_count = t0.attempt_count + 1) ∧
        (∀ u, (upd u).last_attempt_at = some now) ∧
        attemptPerformed (attemptDelivery db tid pub now).2 = true) := by
  cases hft : findTarget db tid with
  | none =>
    left
    constructor <;> simp only [attemptDelivery, hft] <;> rfl
  | some t0 =>
    cases hfp : findPost db t0.post_id with
    | none =>
      left
      constructor <;> simp only [attemptDelivery, hft, hfp] <;> rfl
    | some p =>
      by_cases hst : (t0.status == TargetStatus.queued
          || t0.status == TargetStatus.retrying) = true
      · by_cases hcap : MAX_RETRY_ATTEMPTS ≤ t0.attempt_count
        · left
          constructor <;> simp only [attemptDelivery, hft, hfp] <;>
            rw [if_neg (not_not_intro hst), if_pos hcap] <;> rfl
        · by_cases hacc : hasAccount db p.user_id t0.platform = true
          · cases pub with
            | ok pid purl =>
              right
              refine ⟨t0, rfl, fun u =>
                { u with status := .sent, platform_post_id := some pid,
                         platform_post_url := some purl,
                         attempt_count := t0.attempt_count + 1,
                         last_attempt_at := some now, published_at := some now,
                         last_error := none }, ?_, fun u => rfl, fun u => rfl,
                fun u => rfl, ?_⟩
              · simp only [attemptDelivery, hft, hfp]
                rw [if_neg (not_not_intro hst), if_neg hcap,
                    if_neg (not_not_intro hacc)]
                show (applyAggregator _ _ _).targets = _
                rw [applyAggregator_targets]
                show (db.targets.map _).map _ = _
                rw [List.map_map]
                apply List.map_congr_left
                intro u hu
                by_cases hid : (u.id == tid) = true <;>
                  simp [Function.comp, hid]
              · simp only [attemptDelivery, hft, hfp]
                rw [if_neg (not_not_intro hst), if_neg hcap,
                    if_neg (not_not_intro hacc)]
                rfl
            | err msg =>
              right
              refine ⟨t0, rfl, fun u =>
                { u with
                    status := if decide (t0.attempt_count + 1 < MAX_RETRY_ATTEMPTS)
                              then TargetStatus.retrying else TargetStatus.failed,
                    last_error := some msg,
                    attempt_count := t0.attempt_count + 1,
                    last_attempt_at := some now }, ?_, fun u => rfl, fun u => rfl,
                fun u => rfl, ?_⟩
              · simp only [attemptDelivery, hft, hfp]
                rw [if_neg (not_not_intro hst), if_neg hcap,
                    if_neg (not_not_intro hacc)]
                show (applyAggregator _ _ _).targets = _
                rw [applyAggregator_targets]
                show (db.targets.map _).map _ = _
                rw [List.map_map]
                apply List.map_congr_left
                intro u hu
                by_cases hid : (u.id == tid) = true <;>
                  simp [Function.comp, hid]
              · simp only [attemptDelivery, hft, hfp]
                rw [if_neg (not_not_intro hst), if_neg hcap,
                    if_neg (not_not_intro hacc)]
                rfl
          · right
            refine ⟨t0, rfl, fun u =>
              { u with status := .failed, last_error := some noCredentialNote,
                       attempt_count := t0.attempt_count + 1,
                       last_attempt_at := some now }, ?_, fun u => rfl,
              fun u => rfl, fun u => rfl, ?_⟩
            · simp only [attemptDelivery, hft, hfp]
              rw [if_neg (not_not_intro hst), if_neg hcap, if_pos hacc]
              rfl
            · simp only [attemptDelivery, hft, hfp]
              rw [if_neg (not_not_intro hst), if_neg hcap, if_pos hacc]
              rfl
      · left
        constructor <;> simp only [attemptDelivery, hft, hfp] <;>
          rw [if_pos hst] <;> rfl

theorem target_eq_of_id_eq {db : Db} {t t0 : Target} {tid : Nat}
    (hnodup : (db.targets.map Target.id).Nodup)
    (hft : findTarget db tid = some t0)
    (ht : t ∈ db.targets) (htid : t.id = tid) : t = t0 := by
  have h0mem : t0 ∈ db.targets := List.mem_of_find?_eq_some hft
  have h0id : t0.id = tid := by
    have := List.find?_some hft
    simpa using this
  exact List.inj_on_of_nodup_map hnodup ht h0mem (by rw [htid, h0id])

/-- C8: a delivery attempt that passes the existence and state preconditions
(success, external-failure and no-credential paths alike) increments the
attempted target's attempt_count by exactly 1 and sets its last_attempt_at to
the attempt time; every row's attempt_count after an attempt is its old value
or old value plus one (never less, never more); rows other than the attempted
one are untouched; and cancellation never changes any attempt_count. -/
theorem attemptCount_monotone_spec (db : Db) (tid : Nat) (pub : PublishResult)
    (now : Int) (postId userId : Nat)
    (hnodup : (db.targets.map Target.id).Nodup) :
    (∀ t' ∈ (attemptDelivery db tid pub now).1.targets,
        ∃ t ∈ db.targets, t'.id = t.id ∧
          (t'.attempt_count = t.attempt_count ∨
           t'.attempt_count = t.attempt_count + 1)) ∧
    (attemptPerformed (attemptDelivery db tid pub now).2 = true →
        ∀ t ∈ db.targets, t.id = tid →
          ∃ t' ∈ (attemptDelivery db tid pub now).1.targets,
            t'.id = tid ∧ t'.attempt_count = t.attempt_count + 1 ∧
            t'.last_attempt_at = some now) ∧
    (∀ t ∈ db.targets, t.id ≠ tid →
        t ∈ (attemptDelivery db tid pub now).1.targets) ∧
    ((cancelScheduledPost db postId userId).1.targets.map Target.attempt_count
        = db.targets.map Target.attempt_count) := by
  have hcancel : (cancelScheduledPost db postId userId).1.targets.map
      Target.attempt_count = db.targets.map Target.attempt_count := by
    cases hfp : findPost db postId with
    | none => simp only [cancelScheduledPost, hfp]
    | some post =>
      simp only [cancelScheduledPost, hfp]
      by_cases h1 : ¬(post.user_id = userId)
      · rw [if_pos h1]
      · rw [if_neg h1]
        by_cases h2 : (post.status == PostStatus.published
            || post.status == PostStatus.cancelled) = true
        · rw [if_pos h2]
        · rw [if_neg h2]
          show (db.targets.map _).map Target.attempt_count = _
          rw [List.map_map]
          apply List.map_congr_left
          intro t ht
          by_cases hc : cancellable postId t = true <;>
            simp [Function.comp, hc]
  rcases attemptDelivery_targets_char db tid pub now with
    ⟨heq, hnp⟩ | ⟨t0, hft, upd, hmap, hid, hatt, hlast, hperf⟩
  · refine ⟨?_, ?_, ?_, hcancel⟩
    · intro t' ht'
      rw [heq] at ht'
      exact ⟨t', ht', rfl, Or.inl rfl⟩
    · intro hp
      rw [hnp] at hp
      exact absurd hp (by simp)
    · intro t ht _
      rw [heq]
      exact ht
  · refine ⟨?_, ?_, ?_, hcancel⟩
    · intro t' ht'
      rw [hmap] at ht'
      rcases List.mem_map.mp ht' with ⟨t, ht, hte⟩
      by_cases htid : (t.id == tid) = true
      · rw [if_pos htid] at hte
        have ht0 : t = t0 :=
          target_eq_of_id_eq hnodup hft ht (by simpa using htid)
        refine ⟨t, ht, ?_, Or.inr ?_⟩
        · rw [← hte, hid]
        · rw [← hte, hatt, ht0]
      · rw [if_neg htid] at hte
        exact ⟨t, ht, by rw [hte], Or.inl (by rw [hte])⟩
    · intro _ t ht htid
      have ht0 : t = t0 := target_eq_of_id_eq hnodup hft ht htid
      refine ⟨upd t, ?_, ?_, ?_, hlast t⟩
      · rw [hmap]
        have hm : (if (t.id == tid) = true then upd t else t) ∈
            db.targets.map (fun u => if (u.id == tid) = true then upd u else u) :=
          List.mem_map_of_mem _ ht
        rw [if_pos (show (t.id == tid) = true by simp [htid])] at hm
        exact hm
      · rw [hid, htid]
      · rw [hatt, ht0]
    · intro t ht htid
      rw [hmap]
      have hm : (if (t.id == tid) = true then upd t else t) ∈
          db.targets.map (fun u => if (u.id == tid) = true then upd u else u) :=
        List.mem_map_of_mem _ ht
      rw [if_neg (by simp [htid])] at hm
      exact hm

/-- Witness for C8: the successful attempt on the queued target of
`exDbDeliver` (attempt_count 0) yields a row with attempt_count 1 and
last_attempt_at set. -/
theorem attemptCount_monotone_spec_witness :
    ∃ t' ∈ (attemptDelivery exDbDeliver 10 (.ok "pid" "url") 5).1.targets,
      t'.id = 10 ∧ t'.attempt_count = 1 ∧ t'.last_attempt_at = some 5 := by
  have h := attemptCount_monotone_spec exDbDeliver 10 (.ok "pid" "url") 5 0 0
    (by decide)
  exact h.2.1 (by decide) (mkTarget 10 1 0 .queued 0) (by decide) rfl

/-- Counterexample to C9 as stated: in the flat schedule-worker variant the
fresh-work query has no ordering clause.  On a store holding the later-due
post's target before the earlier-due one, the query returns them in store
order — parent scheduled_at 100 before 50 — not ordered by the parent's
scheduled_at ascending. -/
theorem workerQueuedQueryFlat_unordered_cex :
    workerQueuedQueryFlat exDbWorker 200
      = [mkTarget 10 1 0 .queued 0, mkTarget 11 2 1 .queued 0] ∧
    parentScheduledAt exDbWorker (mkTarget 10 1 0 .queued 0) = 100 ∧
    parentScheduledAt exDbWorker (mkTarget 11 2 1 .queued 0) = 50 ∧
    ¬ List.Pairwise
        (fun a b => parentScheduledAt exDbWorker a ≤ parentScheduledAt exDbWorker b)
        (workerQueuedQueryFlat exDbWorker 200) := by
  have h1 : workerQueuedQueryFlat exDbWorker 200
      = [mkTarget 10 1 0 .queued 0, mkTarget 11 2 1 .queued 0] := by decide
  refine ⟨h1, by decide, by decide, ?_⟩
  rw [h1]
  intro h
  have h2 := (List.pairwise_cons.mp h).1 (mkTarget 11 2 1 .queued 0) (by simp)
  exact absurd h2 (by decide)

/-- C9 (amended): both worker variants' fresh-work queries select exactly the
targets with status queued whose parent post has status queued and
scheduled_at ≤ now, and return at most 50 of them (all of them when at most 50
match); the scheduling variant additionally returns them ordered by the
parent's scheduled_at ascending, while the flat variant applies no ordering
(it returns them in store order). -/
theorem workerQueuedQuery_spec (db : Db) (now : Int) :
    ((workerQueuedQueryFlat db now).length ≤ BATCH_SIZE ∧
     (∀ t ∈ workerQueuedQueryFlat db now, dueQueuedPred db now t = true) ∧
     ((db.targets.filter (dueQueuedPred db now)).length ≤ BATCH_SIZE →
        workerQueuedQueryFlat db now = db.targets.filter (dueQueuedPred db now))) ∧
    ((workerQueuedQueryOrdered db now).length ≤ BATCH_SIZE ∧
     (∀ t ∈ workerQueuedQueryOrdered db now, dueQueuedPred db now t = true) ∧
     List.Pairwise (fun a b => parentScheduledAt db a ≤ parentScheduledAt db b)
        (workerQueuedQueryOrdered db now) ∧
     ((db.targets.filter (dueQueuedPred db now)).length ≤ BATCH_SIZE →
        ∀ t, (t ∈ workerQueuedQueryOrdered db now ↔
              t ∈ db.targets.filter (dueQueuedPred db now)))) := by
  have hperm : List.Perm
      ((db.targets.filter (dueQueuedPred db now)).insertionSort
        (fun a b => parentScheduledAt db a ≤ parentScheduledAt db b))
      (db.targets.filter (dueQueuedPred db now)) :=
    List.perm_insertionSort _ _
  refine ⟨⟨?_, ?_, ?_⟩, ⟨?_, ?_, ?_, ?_⟩⟩
  · rw [workerQueuedQueryFlat, List.length_take]
    exact min_le_left _ _
  · intro t ht
    have := (List.take_sublist _ _).subset ht
    exact (List.mem_filter.mp this).2
  · intro hle
    exact List.take_of_length_le hle
  · rw [workerQueuedQueryOrdered, List.length_take]
    exact min_le_left _ _
  · intro t ht
    have hs := (List.take_sublist _ _).subset ht
    have := hperm.subset hs
    exact (List.mem_filter.mp this).2
  · letI : IsTotal Target (fun a b => parentScheduledAt db a ≤ parentScheduledAt db b) :=
      ⟨fun a b => le_total _ _⟩
    letI : IsTrans Target (fun a b => parentScheduledAt db a ≤ parentScheduledAt db b) :=
      ⟨fun a b c hab hbc => le_trans hab hbc⟩
    exact (List.sorted_insertionSort _ _).sublist (List.take_sublist _ _)
  · intro hle t
    rw [workerQueuedQueryOrdered, List.take_of_length_le (by rw [hperm.length_eq]; exact hle)]
    exact hperm.mem_iff

/-- Witness for C9's amended theorem: on the two-target store the ordered
query returns the earlier-due target first, and both queries select exactly
the matching targets. -/
theorem workerQueuedQuery_spec_witness :
    (∀ t ∈ workerQueuedQueryFlat exDbWorker 200,
        dueQueuedPred exDbWorker 200 t = true) ∧
    (mkTarget 11 2 1 .queued 0 ∈ workerQueuedQueryOrdered exDbWorker 200 ↔
      mkTarget 11 2 1 .queued 0
        ∈ exDbWorker.targets.filter (dueQueuedPred exDbWorker 200)) := by
  have h := workerQueuedQuery_spec exDbWorker 200
  exact ⟨h.1.2.1, h.2.2.2.2 (by decide) (mkTarget 11 2 1 .queued 0)⟩

/-- C10: a delivery attempt whose external publish call fails still gets an
HTTP 200 reply with `success: true`, the failure carried only inside the data
payload (status, error, willRetry), and the worker therefore counts it in the
succeeded tally; only precondition-rejected attempts (non-success envelope)
or attempts whose HTTP call threw count in the failed tally. -/
theorem externalFailure_http200_spec (db : Db) (tid : Nat) (msg : String)
    (now : Int) :
    (∀ e w, (attemptDelivery db tid (.err msg) now).2 = .externalFailure e w →
        publishHttpReply (attemptDelivery db tid (.err msg) now).2
          = { status := 200, success := true,
              dataStatus := some (if w then .retrying else .failed),
              dataError := some e, dataWillRetry := some w } ∧
        workerCountsSucceeded (some (publishHttpReply
          (attemptDelivery db tid (.err msg) now).2)) = true) ∧
    (((attemptDelivery db tid (.err msg) now).2 = .notFound ∨
      (∃ s, (attemptDelivery db tid (.err msg) now).2 = .invalidState s) ∨
      (attemptDelivery db tid (.err msg) now).2 = .retriesExhausted ∨
      (attemptDelivery db tid (.err msg) now).2 = .noCredential) →
        (publishHttpReply (attemptDelivery db tid (.err msg) now).2).success
            = false ∧
        workerCountsSucceeded (some (publishHttpReply
          (attemptDelivery db tid (.err msg) now).2)) = false) ∧
    workerCountsSucceeded none = false := by
  refine ⟨?_, ?_, rfl⟩
  · intro e w h
    rw [h]
    exact ⟨rfl, by simp [workerCountsSucceeded, publishHttpReply]⟩
  · intro h
    rcases h with h | ⟨s, h⟩ | h | h <;> rw [h] <;> exact ⟨rfl, rfl⟩

/-- Witness for C10: the external failure on the queued target of
`exDbDeliver` yields a success envelope counted as succeeded by the worker. -/
theorem externalFailure_http200_spec_witness :
    (attemptDelivery exDbDeliver 10 (.err "rate limited") 5).2
        = .externalFailure "rate limited" true ∧
    workerCountsSucceeded (some (publishHttpReply
        (attemptDelivery exDbDeliver 10 (.err "rate limited") 5).2)) = true := by
  have h : (attemptDelivery exDbDeliver 10 (.err "rate limited") 5).2
      = .externalFailure "rate limited" true := by decide
  exact ⟨h, ((externalFailure_http200_spec exDbDeliver 10 "rate limited" 5).1
      "rate limited" true h).2⟩
